import Mathlib

/-
Verification of the Tak rules engine in `src/convex/games.ts` (the backend
variant referenced by the specification's claims).

Shallow embedding conventions:
* JS numbers that the code only ever uses as non-negative integers
  (board size, move count, piece reserves, coordinates of commands,
  stack sizes, drop counts) are modelled as `Nat`; positions inside the
  road search are `Int` because the DFS forms `row - 1` / `col - 1`.
* The Convex database record for a game is the `Game` structure; the
  separate `moves` table is modelled as the `moves` field of `Game`
  (one insert per accepted command, exactly as the code performs).
* Convex mutations are transactions: every `throw` in the source occurs
  before any `ctx.db.insert` / `ctx.db.patch`, so a rejected command
  leaves the stored state untouched.  The mutations are therefore
  embedded as functions `Game → ... → Except String Game`; `applyCmd`
  is the induced state transition (identity on rejection).
* The acting player's colour is passed directly (the `userId` →
  colour resolution of the source is identity plumbing); the
  `currentPlayer` turn check of the source is kept verbatim.
* `game.isOpeningPhase ?? false` is modelled as a plain `Bool` field:
  every game created by `createGame` has the field set.
* Mutable `visited` matrices of the road DFS are modelled as the list
  of visited coordinates, threaded through the recursion exactly as the
  source mutates and shares them; the recursion gets fuel
  `size * size + 2`, which exceeds the source recursion's depth bound
  (each nested call marks a previously unvisited cell).
* Error strings match the source up to elided apostrophes.
-/

namespace Tak

inductive Player
  | white
  | black
deriving DecidableEq

def Player.other : Player → Player
  | .white => .black
  | .black => .white

inductive PieceType
  | flat
  | standing
  | capstone
deriving DecidableEq

structure Piece where
  type : PieceType
  player : Player
deriving DecidableEq

abbrev Stack := List Piece

abbrev Board := List (List Stack)

structure Pieces where
  flat : Nat
  capstone : Nat
deriving DecidableEq

inductive Status
  | waiting
  | active
  | finished
deriving DecidableEq

inductive GameWinner
  | player (p : Player)
  | draw
deriving DecidableEq

inductive WinCondition
  | road
  | flat
  | resign
deriving DecidableEq

/-- A record of the `moves` table (`ctx.db.insert("moves", ...)`). -/
inductive MoveRec
  | place (player : Player) (moveNumber : Nat) (row col : Nat) (pieceType : PieceType)
  | move (player : Player) (moveNumber : Nat) (fromRow fromCol toRow toCol stackSize : Nat)
      (dropPattern : List Nat)
deriving DecidableEq

/-- The `games` table record (`src/convex/schema.ts`), with the moves table inlined. -/
structure Game where
  boardSize : Nat
  board : Board
  currentPlayer : Player
  status : Status
  moveCount : Nat
  whitePieces : Pieces
  blackPieces : Pieces
  isOpeningPhase : Bool
  winner : Option GameWinner
  winCondition : Option WinCondition
  moves : List MoveRec
deriving DecidableEq

/-- `board[r][c]` with JS-style out-of-range reads giving the empty stack. -/
def getCell (b : Board) (r c : Nat) : Stack :=
  (b.getD r []).getD c []

/-- Write `board[r][c] := s` (no-op out of range; all uses are bounds-checked first). -/
def setCell (b : Board) (r c : Nat) (s : Stack) : Board :=
  b.set r ((b.getD r []).set c s)

/-- `createEmptyBoard` from `games.ts`. -/
def createEmptyBoard (size : Nat) : Board :=
  List.replicate size (List.replicate size ([] : Stack))

/-- `getInitialPieces` from `games.ts` (the `||` default is the final branch). -/
def getInitialPieces (boardSize : Nat) : Pieces :=
  match boardSize with
  | 3 => ⟨10, 0⟩
  | 4 => ⟨15, 0⟩
  | 5 => ⟨21, 1⟩
  | 6 => ⟨30, 1⟩
  | 7 => ⟨40, 2⟩
  | 8 => ⟨50, 2⟩
  | _ => ⟨21, 1⟩

/-- `createGame` from `games.ts`: validates the board size, then inserts a fresh
record (status `waiting`, empty board, both reserves from the size table,
opening phase on). -/
def createGame (boardSize : Nat) : Except String Game :=
  if boardSize ∈ ([3, 4, 5, 6, 7, 8] : List Nat) then
    let pieces := getInitialPieces boardSize
    .ok { boardSize := boardSize
          board := createEmptyBoard boardSize
          currentPlayer := .white
          status := .waiting
          moveCount := 0
          whitePieces := pieces
          blackPieces := pieces
          isOpeningPhase := true
          winner := none
          winCondition := none
          moves := [] }
  else
    .error "Board size must be 3, 4, 5, 6, 7, or 8"

/-- `isValidPosition` from `games.ts` (the `row >= 0` / `col >= 0` parts are
vacuous for `Nat` coordinates). -/
def isValidPosition (row col : Nat) (boardSize : Nat) : Bool :=
  decide (row < boardSize) && decide (col < boardSize)

/-- `isValidPosition` on the `Int` coordinates used by the road DFS. -/
def isValidPositionInt (row col : Int) (boardSize : Nat) : Bool :=
  decide (0 ≤ row) && decide (row < (boardSize : Int)) &&
    decide (0 ≤ col) && decide (col < (boardSize : Int))

/-- Cell read at `Int` coordinates (out-of-range gives the empty stack; the
DFS only reads cells it has bounds-checked). -/
def getCellInt (b : Board) (r c : Int) : Stack :=
  if 0 ≤ r ∧ 0 ≤ c then getCell b r.toNat c.toNat else []

/-- The repeated test of `checkRoad` / `dfsRoad`: the cell is non-empty and its
top piece belongs to `p` with `type !== "standing"`. -/
def roadPieceAt (b : Board) (p : Player) (pos : Int × Int) : Bool :=
  match (getCellInt b pos.1 pos.2).getLast? with
  | some t => if t.player = p ∧ t.type ≠ .standing then true else false
  | none => false

inductive Axis
  | horizontal
  | vertical
deriving DecidableEq

/-- `dfsRoad` from `games.ts`.  The mutable `visited` matrix is the threaded
list of visited coordinates; the result carries the updated list so that
callers sharing one `visited` (the horizontal scan of `checkRoad`) observe the
mutations.  `fuel` bounds the recursion depth; `checkRoad` supplies
`size * size + 2`, which the source's recursion (each nested call marks a
fresh cell in `visited`) never reaches. -/
def dfsRoad (b : Board) (p : Player) (ax : Axis) :
    Nat → List (Int × Int) → Int × Int → Bool × List (Int × Int)
  | 0, visited, _ => (false, visited)
  | fuel + 1, visited, pos =>
    let size := b.length
    if ax = Axis.horizontal ∧ pos.2 = (size : Int) - 1 then (true, visited)
    else if ax = Axis.vertical ∧ pos.1 = (size : Int) - 1 then (true, visited)
    else
      let visited1 := pos :: visited
      ([((0 : Int), (1 : Int)), (0, -1), (1, 0), (-1, 0)]).foldl
        (fun acc d =>
          if acc.1 then acc
          else
            let np := (pos.1 + d.1, pos.2 + d.2)
            if isValidPositionInt np.1 np.2 size ∧ np ∉ acc.2 ∧ roadPieceAt b p np then
              dfsRoad b p ax fuel acc.2 np
            else acc)
        (false, visited1)

/-- `checkRoad` from `games.ts`.  The horizontal scan shares one `visited`
across all starting rows (as the source does); the vertical scan allocates a
fresh `newVisited` per starting column. -/
def checkRoad (b : Board) (p : Player) : Bool :=
  let size := b.length
  let fuel := size * size + 2
  let horiz :=
    (List.range size).foldl
      (fun (acc : Bool × List (Int × Int)) row =>
        if acc.1 then acc
        else if roadPieceAt b p ((row : Int), 0) then
          dfsRoad b p .horizontal fuel acc.2 ((row : Int), 0)
        else acc)
      (false, [])
  if horiz.1 then true
  else
    (List.range size).any fun col =>
      roadPieceAt b p (0, (col : Int)) &&
        (dfsRoad b p .vertical fuel [] (0, (col : Int))).1

/-- `isBoardFull` from `games.ts`: no cell has an empty stack. -/
def isBoardFull (b : Board) : Bool :=
  b.all fun row => row.all fun cell => !cell.isEmpty

/-- The per-cell accumulator step of `countFlatStones`: a non-empty stack whose
top piece is flat bumps the white (first) or black (second) counter. -/
def countCell (acc : Nat × Nat) (cell : Stack) : Nat × Nat :=
  match cell.getLast? with
  | some top =>
    if top.type = .flat then
      if top.player = .white then (acc.1 + 1, acc.2) else (acc.1, acc.2 + 1)
    else acc
  | none => acc

/-- `countFlatStones` from `games.ts` (returns `(whiteFlats, blackFlats)`). -/
def countFlatStones (b : Board) : Nat × Nat :=
  b.foldl (fun acc row => row.foldl countCell acc) (0, 0)

/-- `hasPlayerRunOutOfPieces` from `games.ts` (`<= 0` kept verbatim; for `Nat`
reserves it coincides with `= 0`). -/
def hasPlayerRunOutOfPieces (wp bp : Pieces) : Bool :=
  (decide (wp.flat ≤ 0) && decide (wp.capstone ≤ 0)) ||
    (decide (bp.flat ≤ 0) && decide (bp.capstone ≤ 0))

/-- `checkTak` from `games.ts`: some empty cell, once filled with a
hypothetical flat stone of `p`, completes a road for `p`. -/
def checkTak (b : Board) (p : Player) : Bool :=
  (List.range b.length).any fun row =>
    (List.range b.length).any fun col =>
      (getCell b row col).isEmpty &&
        checkRoad (setCell b row col [⟨.flat, p⟩]) p

/-- The result record of `determineWinner`. -/
structure WinResult where
  winner : Option GameWinner
  winCondition : Option WinCondition
  takWarning : Option Player
deriving DecidableEq

/-- `determineWinner` from `games.ts`: roads first (dragon clause gives the
active player the win when both have roads), then the flat-win trigger
(full board or an exhausted reserve), then the advisory Tak warning. -/
def determineWinner (b : Board) (wp bp : Pieces) (activePlayer : Player) : WinResult :=
  let whiteHasRoad := checkRoad b .white
  let blackHasRoad := checkRoad b .black
  if whiteHasRoad ∧ blackHasRoad then ⟨some (.player activePlayer), some .road, none⟩
  else if whiteHasRoad then ⟨some (.player .white), some .road, none⟩
  else if blackHasRoad then ⟨some (.player .black), some .road, none⟩
  else
    let boardFull := isBoardFull b
    let outOfPieces := hasPlayerRunOutOfPieces wp bp
    if boardFull ∨ outOfPieces then
      let flatCounts := countFlatStones b
      if flatCounts.1 > flatCounts.2 then ⟨some (.player .white), some .flat, none⟩
      else if flatCounts.2 > flatCounts.1 then ⟨some (.player .black), some .flat, none⟩
      else ⟨some .draw, some .flat, none⟩
    else
      if checkTak b .white then ⟨none, none, some .white⟩
      else if checkTak b .black then ⟨none, none, some .black⟩
      else ⟨none, none, none⟩

/-- The state-mutating tail of the `placePiece` mutation, after all validation
has passed: push the piece, decrement the acting player's matching reserve
(only for non-opening moves — the source touches no reserve during the
opening), run `determineWinner` unless this is the very first ply of an
opening, record the move, and patch the game (turn always flips; the
winner/status fields are patched only when a winner exists, mirroring the
`...(winner && {...})` spread). -/
def placeApply (g : Game) (pc : Player) (row col : Nat) (pt : PieceType)
    (pieceOwner : Player) (isOpeningMove : Bool) : Game :=
  let newBoard := setCell g.board row col (getCell g.board row col ++ [⟨pt, pieceOwner⟩])
  let nwp :=
    if isOpeningMove = false ∧ pc = .white then
      if pt = .capstone then { g.whitePieces with capstone := g.whitePieces.capstone - 1 }
      else { g.whitePieces with flat := g.whitePieces.flat - 1 }
    else g.whitePieces
  let nbp :=
    if isOpeningMove = false ∧ pc = .black then
      if pt = .capstone then { g.blackPieces with capstone := g.blackPieces.capstone - 1 }
      else { g.blackPieces with flat := g.blackPieces.flat - 1 }
    else g.blackPieces
  let res :=
    if g.isOpeningPhase = false ∨ 1 ≤ g.moveCount then determineWinner newBoard nwp nbp pc
    else ⟨none, none, none⟩
  { g with
    board := newBoard
    currentPlayer := pc.other
    moveCount := g.moveCount + 1
    whitePieces := nwp
    blackPieces := nbp
    isOpeningPhase := g.isOpeningPhase && decide (g.moveCount + 1 < 2)
    status := if res.winner.isSome then .finished else g.status
    winner := if res.winner.isSome then res.winner else g.winner
    winCondition := if res.winner.isSome then res.winCondition else g.winCondition
    moves := g.moves ++ [.place pc (g.moveCount + 1) row col pt] }

/-- The validation phase of the `placePiece` mutation, in source order; on
success it resolves the placed piece's owner and the `isOpeningMove` flag.
During the opening phase (`isOpeningPhase && moveCount < 2`) the placed piece
belongs to the opponent, only flat stones are accepted, and no reserve
availability check is made; otherwise the acting player places an own piece
subject to reserve availability. -/
def placeCheck (g : Game) (pc : Player) (row col : Nat) (pt : PieceType) :
    Except String (Player × Bool) :=
  if g.status ≠ .active then .error "Game is not active"
  else if g.currentPlayer ≠ pc then .error "It is not your turn"
  else if !isValidPosition row col g.boardSize then .error "Invalid position"
  else if getCell g.board row col ≠ ([] : Stack) then .error "Position is not empty"
  else if g.isOpeningPhase = true ∧ g.moveCount < 2 then
    if pt ≠ .flat then .error "Opening moves must be flat stones"
    else .ok (pc.other, true)
  else
    let pieces := if pc = .white then g.whitePieces else g.blackPieces
    if pt = .capstone ∧ pieces.capstone = 0 then .error "No capstones remaining"
    else if pt ≠ .capstone ∧ pieces.flat = 0 then .error "No flat stones remaining"
    else .ok (pc, false)

/-- The `placePiece` mutation from `games.ts`.  All `throw`s of the source
appear as `.error` results (each precedes every database write in the
source); a validated command is applied by `placeApply`. -/
def placePiece (g : Game) (pc : Player) (row col : Nat) (pt : PieceType) :
    Except String Game :=
  match placeCheck g pc row col pt with
  | .error e => .error e
  | .ok ow => .ok (placeApply g pc row col pt ow.1 ow.2)

/-- Replace the top piece of a stack by its flattened (kind `flat`, same
owner) version — the `topPieceOnTarget.type = "flat"` mutation of the source's
wall-flattening case. -/
def flattenTop (s : Stack) : Stack :=
  match s.getLast? with
  | some t => s.dropLast ++ [⟨.flat, t.player⟩]
  | none => s

/-- The path-walking loop of `movePieces`: cells of the path paired with their
scheduled drop counts, the working board copy, and the carried pieces still in
hand.  A capstone on a visited cell always rejects; a standing piece rejects
unless the carried top is a capstone being dropped alone on the final cell, in
which case the wall is flattened in place first.  Dropping takes the scheduled
count from the bottom of the carried sequence (`splice(-dropCount)` leaves the
earlier-stacked pieces in hand). -/
def moveLoop : List ((Nat × Nat) × Nat) → Board → List Piece → Except String Board
  | [], b, _ => .ok b
  | ((rc, dropCount) :: rest), b, rem =>
    let targetStack := getCell b rc.1 rc.2
    let proceed := fun (ts : Stack) =>
      let dropped := rem.drop (rem.length - dropCount)
      let kept := rem.take (rem.length - dropCount)
      moveLoop rest (setCell b rc.1 rc.2 (ts ++ dropped)) kept
    match targetStack.getLast? with
    | none => proceed targetStack
    | some top =>
      if top.type = .standing then
        if rem.getLast?.map Piece.type ≠ some PieceType.capstone then
          .error "Only capstones can move onto standing stones"
        else if rest = [] ∧ dropCount = 1 then proceed (flattenTop targetStack)
        else .error "Capstone can only flatten standing stone if it is the final piece dropped"
      else if top.type = .capstone then .error "Cannot move onto capstones"
      else proceed targetStack

/-- The movement path of `movePieces`: the cells from origin-plus-one-step to
the destination, computed from the unit step `rowDiff / |rowDiff|`,
`colDiff / |colDiff|` exactly as the source does. -/
def movePath (fromRow fromCol toRow toCol : Nat) : List (Nat × Nat) :=
  let rowDiff : Int := (toRow : Int) - (fromRow : Int)
  let colDiff : Int := (toCol : Int) - (fromCol : Int)
  let distance := rowDiff.natAbs + colDiff.natAbs
  let stepRow : Int := if rowDiff = 0 then 0 else rowDiff / rowDiff.natAbs
  let stepCol : Int := if colDiff = 0 then 0 else colDiff / colDiff.natAbs
  (List.range distance).map fun i =>
    (((fromRow : Int) + stepRow * ((i : Int) + 1)).toNat,
     ((fromCol : Int) + stepCol * ((i : Int) + 1)).toNat)

/-- The state-mutating tail of the `movePieces` mutation after a successful
path walk: win evaluation on the new board with the UNCHANGED reserves, the
move record, and the patch (turn always flips; `isOpeningPhase` and the
reserves are not patched). -/
def moveFinish (g : Game) (pc : Player) (fromRow fromCol toRow toCol stackSize : Nat)
    (dropPattern : List Nat) (newBoard : Board) : Game :=
  let res := determineWinner newBoard g.whitePieces g.blackPieces pc
  { g with
    board := newBoard
    currentPlayer := pc.other
    moveCount := g.moveCount + 1
    status := if res.winner.isSome then .finished else g.status
    winner := if res.winner.isSome then res.winner else g.winner
    winCondition := if res.winner.isSome then res.winCondition else g.winCondition
    moves := g.moves ++
      [.move pc (g.moveCount + 1) fromRow fromCol toRow toCol stackSize dropPattern] }

/-- The validation-and-walk phase of the `movePieces` mutation: the guards in
source order, the source-stack split (`splice(-stackSize)`), and the path
walk, producing the new board. -/
def moveWalk (g : Game) (pc : Player) (fromRow fromCol toRow toCol : Nat)
    (stackSize : Nat) (dropPattern : List Nat) : Except String Board :=
  if g.status ≠ .active then .error "Game is not active"
  else if g.currentPlayer ≠ pc then .error "It is not your turn"
  else if g.isOpeningPhase = true ∧ g.moveCount < 2 then
    .error "Cannot move pieces during opening phase"
  else if !(isValidPosition fromRow fromCol g.boardSize &&
      isValidPosition toRow toCol g.boardSize) then .error "Invalid position"
  else
    let fromStack := getCell g.board fromRow fromCol
    if fromStack.length = 0 then .error "No pieces to move"
    else if fromStack.getLast?.map Piece.player ≠ some pc then
      .error "You do not control the top piece"
    else if stackSize = 0 ∨ stackSize > fromStack.length ∨ stackSize > g.boardSize then
      .error "Invalid stack size"
    else
      let rowDiff : Int := (toRow : Int) - (fromRow : Int)
      let colDiff : Int := (toCol : Int) - (fromCol : Int)
      if (rowDiff ≠ 0 ∧ colDiff ≠ 0) ∨ (rowDiff = 0 ∧ colDiff = 0) then
        .error "Must move in a straight line"
      else
        let distance := rowDiff.natAbs + colDiff.natAbs
        if dropPattern.length ≠ distance then .error "Drop pattern length must match distance"
        else if dropPattern.sum ≠ stackSize then
          .error "Drop pattern must account for all pieces"
        else if dropPattern.any (· = 0) then .error "All drop counts must be positive"
        else
          let movingPieces := fromStack.drop (fromStack.length - stackSize)
          let b0 := setCell g.board fromRow fromCol (fromStack.take (fromStack.length - stackSize))
          moveLoop ((movePath fromRow fromCol toRow toCol).zip dropPattern) b0 movingPieces

/-- The `movePieces` mutation from `games.ts`.  All `throw`s of the source
appear as `.error` results (each precedes every database write in the
source); a successful walk is committed by `moveFinish`. -/
def movePieces (g : Game) (pc : Player) (fromRow fromCol toRow toCol : Nat)
    (stackSize : Nat) (dropPattern : List Nat) : Except String Game :=
  match moveWalk g pc fromRow fromCol toRow toCol stackSize dropPattern with
  | .error e => .error e
  | .ok newBoard =>
    .ok (moveFinish g pc fromRow fromCol toRow toCol stackSize dropPattern newBoard)

/-- A command submitted against a game: the acting player's colour plus the
mutation arguments. -/
inductive Cmd
  | place (pc : Player) (row col : Nat) (pieceType : PieceType)
  | move (pc : Player) (fromRow fromCol toRow toCol stackSize : Nat) (dropPattern : List Nat)
deriving DecidableEq

def Cmd.player : Cmd → Player
  | .place pc _ _ _ => pc
  | .move pc _ _ _ _ _ _ => pc

def runCmd (g : Game) : Cmd → Except String Game
  | .place pc r c pt => placePiece g pc r c pt
  | .move pc fr fc tr tc ss dp => movePieces g pc fr fc tr tc ss dp

/-- The state transition induced by a command under Convex transaction
semantics: a successful mutation commits its patched record, a thrown
rejection rolls the transaction back (every `throw` in both mutations occurs
before any database write). -/
def applyCmd (g : Game) (c : Cmd) : Game :=
  match runCmd g c with
  | .ok g' => g'
  | .error _ => g

/-- A freshly created game after the second player joined (`createGame`
followed by `joinGame`, which only sets `blackPlayer` and flips the status
to `active`). -/
def freshActiveGame (sz : Nat) : Game :=
  { boardSize := sz
    board := createEmptyBoard sz
    currentPlayer := .white
    status := .active
    moveCount := 0
    whitePieces := getInitialPieces sz
    blackPieces := getInitialPieces sz
    isOpeningPhase := true
    winner := none
    winCondition := none
    moves := [] }

/-- Number of pieces on the board owned by `p` (all stack positions, not just
tops) — the `piecesOnBoard` quantity of the reserve-conservation property. -/
def piecesOnBoard (p : Player) (b : Board) : Nat :=
  (b.map fun row => (row.map fun cell => cell.countP fun pc => decide (pc.player = p)).sum).sum

/-- Number of stacks whose top piece is a flat stone of `p` — the
specification's flat tally (standing and capstone tops count for nobody). -/
def flatTopCount (p : Player) (b : Board) : Nat :=
  (b.map fun row =>
    row.countP fun cell => decide (cell.getLast? = some ⟨PieceType.flat, p⟩)).sum

/-- Modelled from the spec: the flat-win comparison with a configurable Komi
(`komi` half-point units added to White's flat tally before comparison,
default 0) that §4.4 of the spec requires; the code under `src/convex` has no
such parameter.  Tallies are doubled so that half-point units stay integral.
Everything except the final comparison coincides with `determineWinner`. -/
def determineWinnerKomi (komi : Nat) (b : Board) (wp bp : Pieces)
    (activePlayer : Player) : WinResult :=
  let whiteHasRoad := checkRoad b .white
  let blackHasRoad := checkRoad b .black
  if whiteHasRoad ∧ blackHasRoad then ⟨some (.player activePlayer), some .road, none⟩
  else if whiteHasRoad then ⟨some (.player .white), some .road, none⟩
  else if blackHasRoad then ⟨some (.player .black), some .road, none⟩
  else
    let boardFull := isBoardFull b
    let outOfPieces := hasPlayerRunOutOfPieces wp bp
    if boardFull ∨ outOfPieces then
      let flatCounts := countFlatStones b
      if 2 * flatCounts.1 + komi > 2 * flatCounts.2 then ⟨some (.player .white), some .flat, none⟩
      else if 2 * flatCounts.2 > 2 * flatCounts.1 + komi then
        ⟨some (.player .black), some .flat, none⟩
      else ⟨some .draw, some .flat, none⟩
    else
      if checkTak b .white then ⟨none, none, some .white⟩
      else if checkTak b .black then ⟨none, none, some .black⟩
      else ⟨none, none, none⟩

/-- A board stored for a game of size `sz`: `sz` rows of `sz` cells. -/
def WellFormedBoard (b : Board) (sz : Nat) : Prop :=
  b.length = sz ∧ ∀ row ∈ b, row.length = sz

lemma getD_set_self {α : Type} :
    ∀ (l : List α) (i : Nat) (a d : α), i < l.length → (l.set i a).getD i d = a := by
  intro l
  induction l with
  | nil => intro i a d h; simp at h
  | cons x xs ih =>
    intro i a d h
    cases i with
    | zero => simp [List.set]
    | succ j =>
      simp only [List.set, List.getD_cons_succ]
      exact ih j a d (by simpa using h)

lemma getCell_setCell (b : Board) (r c : Nat) (s : Stack)
    (hr : r < b.length) (hc : c < (b.getD r []).length) :
    getCell (setCell b r c s) r c = s := by
  unfold getCell setCell
  rw [getD_set_self b r ((b.getD r []).set c s) [] hr]
  exact getD_set_self _ c s [] hc

lemma drop_length_sub_one {α : Type} :
    ∀ (l : List α) (a : α), l.getLast? = some a → l.drop (l.length - 1) = [a] := by
  intro l
  induction l with
  | nil => intro a h; simp at h
  | cons x xs ih =>
    intro a h
    cases xs with
    | nil => simp_all
    | cons y ys =>
      rw [List.getLast?_cons_cons] at h
      have hlen : (x :: y :: ys).length - 1 = (y :: ys).length := by simp
      rw [hlen]
      simpa using ih a h

lemma countCell_eq (acc : Nat × Nat) (cell : Stack) :
    countCell acc cell =
      (acc.1 + (if cell.getLast? = some ⟨PieceType.flat, Player.white⟩ then 1 else 0),
       acc.2 + (if cell.getLast? = some ⟨PieceType.flat, Player.black⟩ then 1 else 0)) := by
  unfold countCell
  cases h : cell.getLast? with
  | none => simp
  | some top =>
    obtain ⟨t, p⟩ := top
    cases t <;> cases p <;> simp

lemma foldl_countCell (row : List Stack) : ∀ acc : Nat × Nat,
    row.foldl countCell acc =
      (acc.1 + (row.countP fun cell =>
          decide (cell.getLast? = some ⟨PieceType.flat, Player.white⟩)),
       acc.2 + (row.countP fun cell =>
          decide (cell.getLast? = some ⟨PieceType.flat, Player.black⟩))) := by
  induction row with
  | nil => intro acc; simp
  | cons c cs ih =>
    intro acc
    rw [List.foldl_cons, ih, countCell_eq]
    simp only [List.countP_cons, Prod.mk.injEq, decide_eq_true_eq]
    by_cases h1 : c.getLast? = some ⟨PieceType.flat, Player.white⟩ <;>
      by_cases h2 : c.getLast? = some ⟨PieceType.flat, Player.black⟩ <;>
        simp [h1, h2] <;> omega

/-- `countFlatStones` tallies exactly the stacks whose top piece is a flat
stone of the respective player: standing and capstone tops count for nobody. -/
lemma countFlatStones_eq (b : Board) :
    countFlatStones b = (flatTopCount .white b, flatTopCount .black b) := by
  unfold countFlatStones flatTopCount
  suffices h : ∀ acc : Nat × Nat,
      b.foldl (fun acc row => row.foldl countCell acc) acc =
        (acc.1 + (b.map fun row => row.countP fun cell =>
            decide (cell.getLast? = some ⟨PieceType.flat, Player.white⟩)).sum,
         acc.2 + (b.map fun row => row.countP fun cell =>
            decide (cell.getLast? = some ⟨PieceType.flat, Player.black⟩)).sum) by
    simpa using h (0, 0)
  induction b with
  | nil => intro acc; simp
  | cons row rows ih =>
    intro acc
    rw [List.foldl_cons, foldl_countCell, ih]
    simp only [List.map_cons, List.sum_cons, Prod.mk.injEq]
    constructor <;> omega

/-- Claim C10: `createGame` rejects (and inserts nothing for) every board size
outside {3,4,5,6,7,8}; for a size in the set it creates a waiting game with an
empty size-by-size board, move count 0, and identical white and black reserves
taken from the fixed size table. -/
theorem createGame_sizes (sz : Nat) :
    (sz ∉ ([3, 4, 5, 6, 7, 8] : List Nat) →
      createGame sz = .error "Board size must be 3, 4, 5, 6, 7, or 8") ∧
    (sz ∈ ([3, 4, 5, 6, 7, 8] : List Nat) →
      createGame sz = .ok
        { boardSize := sz
          board := createEmptyBoard sz
          currentPlayer := .white
          status := .waiting
          moveCount := 0
          whitePieces := getInitialPieces sz
          blackPieces := getInitialPieces sz
          isOpeningPhase := true
          winner := none
          winCondition := none
          moves := [] } ∧
      (createEmptyBoard sz).length = sz ∧
      (∀ row ∈ createEmptyBoard sz, row.length = sz ∧ ∀ cell ∈ row, cell = ([] : Stack))) := by
  constructor
  · intro h
    unfold createGame
    rw [if_neg h]
  · intro h
    refine ⟨by unfold createGame; rw [if_pos h], by simp [createEmptyBoard], ?_⟩
    intro row hrow
    have hrow2 := List.eq_of_mem_replicate hrow
    subst hrow2
    exact ⟨by simp, fun cell hcell => List.eq_of_mem_replicate hcell⟩

theorem createGame_sizes_witness :
    createGame 9 = .error "Board size must be 3, 4, 5, 6, 7, or 8" ∧
    createGame 5 = .ok
      { boardSize := 5
        board := createEmptyBoard 5
        currentPlayer := .white
        status := .waiting
        moveCount := 0
        whitePieces := getInitialPieces 5
        blackPieces := getInitialPieces 5
        isOpeningPhase := true
        winner := none
        winCondition := none
        moves := [] } :=
  ⟨(createGame_sizes 9).1 (by decide), ((createGame_sizes 5).2 (by decide)).1⟩

/-- Claim C1 (code bug witness): on the first opening placement of a fresh
active 5×5 game — White places a flat stone at (0,0), so the placed piece is
owned by Black — the mutation succeeds, the piece lands with owner Black, but
NEITHER reserve is decremented: the source skips the reserve update for
opening moves, while the claim requires the owner's (Black's) flat reserve to
drop from 21 to 20. -/
theorem opening_place_reserves_unchanged :
    (placePiece (freshActiveGame 5) .white 0 0 .flat).map
        (fun g => (g.whitePieces, g.blackPieces, getCell g.board 0 0)) =
      .ok (⟨21, 1⟩, ⟨21, 1⟩, [⟨.flat, .black⟩]) := by
  rfl

/-- Claim C2 (code bug witness): after the very first accepted command of a
fresh active 5×5 game (an opening placement of a Black-owned flat stone),
Black's pieces on the board plus Black's remaining reserves total 23, while
Black's starting allotment is 21 + 1 = 22 — reserve conservation is violated
because opening placements decrement no reserve. -/
theorem opening_breaks_reserve_conservation :
    (placePiece (freshActiveGame 5) .white 0 0 .flat).map
        (fun g => piecesOnBoard .black g.board + g.blackPieces.flat + g.blackPieces.capstone) =
      .ok 23 ∧
    (getInitialPieces 5).flat + (getInitialPieces 5).capstone = 22 := by
  constructor <;> rfl

/-- Claim C3 (counterexample): on the SECOND opening ply (move count 1,
reached from a fresh game by an accepted first opening placement), a Place of
Standing kind IS rejected with the opening-kind error — the source restricts
both opening plies to flat stones, not only ply 0 as the claim states. -/
theorem second_opening_ply_standing_rejected :
    placePiece (applyCmd (freshActiveGame 5) (.place .white 2 2 .flat)) .black 1 1 .standing =
      .error "Opening moves must be flat stones" := by
  rfl

lemma getD_mem {α : Type} :
    ∀ (l : List α) (i : Nat) (d : α), i < l.length → l.getD i d ∈ l := by
  intro l
  induction l with
  | nil => intro i d h; simp at h
  | cons x xs ih =>
    intro i d h
    cases i with
    | zero => simp
    | succ j => exact List.mem_cons_of_mem x (ih j d (by simpa using h))

/-- Claim C3 (amended): for a Place command in the opening phase (EITHER of
the first two plies, `moveCount < 2`) that passes the shared guards, the
opening-kind rejection fires exactly when the requested kind is not Flat, and
an accepted opening placement puts a piece owned by the acting player's
OPPONENT on the target cell.  (The claim's "only the very first ply is
restricted" is what fails: see the counterexample.) -/
theorem opening_kind_rule_both_plies (g : Game) (pc : Player) (r c : Nat) (pt : PieceType)
    (hst : g.status = .active) (ht : g.currentPlayer = pc)
    (hwf : WellFormedBoard g.board g.boardSize)
    (hv : isValidPosition r c g.boardSize = true)
    (he : getCell g.board r c = ([] : Stack))
    (hop : g.isOpeningPhase = true) (hmc : g.moveCount < 2) :
    (pt ≠ .flat → placePiece g pc r c pt = .error "Opening moves must be flat stones") ∧
    (pt = .flat → ∃ g', placePiece g pc r c pt = .ok g' ∧
      getCell g'.board r c = [⟨PieceType.flat, pc.other⟩]) := by
  have hbounds : r < g.boardSize ∧ c < g.boardSize := by
    simpa [isValidPosition] using hv
  have hr : r < g.board.length := by rw [hwf.1]; exact hbounds.1
  have hcn : c < (g.board.getD r []).length := by
    rw [hwf.2 _ (getD_mem g.board r [] hr)]
    exact hbounds.2
  constructor
  · intro hpt
    have hc : placeCheck g pc r c pt = .error "Opening moves must be flat stones" := by
      simp [placeCheck, hst, ht, hv, he, hop, hmc, hpt]
    unfold placePiece
    rw [hc]
  · intro hpt
    subst hpt
    have hc : placeCheck g pc r c .flat = .ok (pc.other, true) := by
      simp [placeCheck, hst, ht, hv, he, hop, hmc]
    refine ⟨placeApply g pc r c .flat pc.other true, by unfold placePiece; rw [hc], ?_⟩
    have hb : (placeApply g pc r c .flat pc.other true).board =
        setCell g.board r c (getCell g.board r c ++ [⟨PieceType.flat, pc.other⟩]) := by
      simp [placeApply]
    rw [hb, he]
    simpa using getCell_setCell g.board r c [⟨PieceType.flat, pc.other⟩] hr hcn

lemma wellFormed_createEmptyBoard (sz : Nat) : WellFormedBoard (createEmptyBoard sz) sz := by
  constructor
  · simp [createEmptyBoard]
  · intro row h
    rw [List.eq_of_mem_replicate h]
    simp

theorem opening_kind_rule_both_plies_witness :
    (placePiece (freshActiveGame 5) .white 0 0 .standing =
      .error "Opening moves must be flat stones") ∧
    ∃ g', placePiece (freshActiveGame 5) .white 0 0 .flat = .ok g' ∧
      getCell g'.board 0 0 = [⟨PieceType.flat, Player.black⟩] := by
  have h1 := (opening_kind_rule_both_plies (freshActiveGame 5) .white 0 0 .standing rfl rfl
      (wellFormed_createEmptyBoard 5) (by decide) rfl rfl (by decide)).1 (by decide)
  have h2 := (opening_kind_rule_both_plies (freshActiveGame 5) .white 0 0 .flat rfl rfl
      (wellFormed_createEmptyBoard 5) (by decide) rfl rfl (by decide)).2 rfl
  exact ⟨h1, h2⟩

/-- Claim C4 (amended): after EVERY successfully applied command — placement
or stack move, terminal or not — the stored `currentPlayer` is set to the
opponent of the acting player; it is never frozen at its pre-move value. -/
theorem turn_always_alternates (g : Game) (c : Cmd) (g' : Game)
    (h : runCmd g c = .ok g') :
    g'.currentPlayer = c.player.other := by
  cases c with
  | place pc r cc pt =>
    simp only [runCmd] at h
    unfold placePiece at h
    cases hm : placeCheck g pc r cc pt with
    | error e =>
      simp only [hm] at h
      exact Except.noConfusion h
    | ok ow =>
      simp only [hm, Except.ok.injEq] at h
      subst h
      exact rfl
  | move pc fr fc tr tc ss dp =>
    simp only [runCmd] at h
    unfold movePieces at h
    cases hm : moveWalk g pc fr fc tr tc ss dp with
    | error e =>
      simp only [hm] at h
      exact Except.noConfusion h
    | ok nb =>
      simp only [hm, Except.ok.injEq] at h
      subst h
      exact rfl

set_option maxHeartbeats 1600000 in
theorem turn_always_alternates_witness :
    (applyCmd (freshActiveGame 5) (.place .white 2 2 .flat)).currentPlayer = Player.black :=
  turn_always_alternates (freshActiveGame 5) (.place .white 2 2 .flat)
    (applyCmd (freshActiveGame 5) (.place .white 2 2 .flat)) rfl

/-- A 3×3 position one placement away from a White horizontal road, with the
opening phase over and White to move. -/
def nearRoadGame : Game :=
  { boardSize := 3
    board := setCell (setCell (createEmptyBoard 3) 0 0 [⟨.flat, .white⟩]) 0 1 [⟨.flat, .white⟩]
    currentPlayer := .white
    status := .active
    moveCount := 6
    whitePieces := ⟨7, 0⟩
    blackPieces := ⟨8, 0⟩
    isOpeningPhase := false
    winner := none
    winCondition := none
    moves := [] }

/-- Claim C5 (amended): the engine has no Komi: `createGame` accepts no Komi
option, the game record stores none, and the flat-win comparison of
`determineWinner` is always on raw tallies — i.e. the code coincides
everywhere with the spec-modelled Komi comparison fixed at 0, and at no other
value (see the counterexample). -/
theorem flat_comparison_is_komi_zero (b : Board) (wp bp : Pieces) (ap : Player) :
    determineWinner b wp bp ap = determineWinnerKomi 0 b wp bp ap := by
  have e1 : (2 * (countFlatStones b).1 + 0 > 2 * (countFlatStones b).2) =
      ((countFlatStones b).1 > (countFlatStones b).2) := by
    apply propext
    omega
  have e2 : (2 * (countFlatStones b).2 > 2 * (countFlatStones b).1 + 0) =
      ((countFlatStones b).2 > (countFlatStones b).1) := by
    apply propext
    omega
  simp only [determineWinner, determineWinnerKomi, e1, e2]

/-- A full 3×3 board with no road for either player (the centre is a standing
stone) and equal flat tallies 4–4. -/
def checkerBoard : Board :=
  [[[⟨.flat, .white⟩], [⟨.flat, .black⟩], [⟨.flat, .white⟩]],
   [[⟨.flat, .black⟩], [⟨.standing, .white⟩], [⟨.flat, .black⟩]],
   [[⟨.flat, .white⟩], [⟨.flat, .black⟩], [⟨.flat, .white⟩]]]

set_option maxHeartbeats 1600000 in
/-- Claim C5 (counterexample): on a full board with equal flat tallies the
code's `determineWinner` yields a Draw — the outcome required for Komi 0 —
whereas the spec-modelled comparison with any configured non-zero Komi (here
the smallest, half a point) awards White the flat win: no input of the code
can produce that configured behaviour, because the code has no Komi parameter
at all. -/
theorem komi_not_implemented :
    determineWinner checkerBoard ⟨17, 0⟩ ⟨17, 0⟩ .white =
      ⟨some GameWinner.draw, some WinCondition.flat, none⟩ ∧
    determineWinnerKomi 1 checkerBoard ⟨17, 0⟩ ⟨17, 0⟩ .white =
      ⟨some (GameWinner.player .white), some WinCondition.flat, none⟩ := by
  constructor <;> rfl

/-- Claim C6: whenever at least one player has a completed road, the outcome
kind is Road (never Flat); and when BOTH players have a road — the dragon
clause — the winner is the player who just moved. -/
theorem road_priority_and_dragon_clause (b : Board) (wp bp : Pieces) (ap : Player)
    (h : checkRoad b .white = true ∨ checkRoad b .black = true) :
    (determineWinner b wp bp ap).winCondition = some WinCondition.road ∧
    (checkRoad b .white = true → checkRoad b .black = true →
      determineWinner b wp bp ap = ⟨some (GameWinner.player ap), some WinCondition.road, none⟩) := by
  cases hw : checkRoad b .white <;> cases hb : checkRoad b .black <;>
    simp_all [determineWinner]

/-- A 3×3 board on which BOTH players have completed horizontal roads. -/
def dualRoadBoard : Board :=
  [[[⟨.flat, .white⟩], [⟨.flat, .white⟩], [⟨.flat, .white⟩]],
   [[], [], []],
   [[⟨.flat, .black⟩], [⟨.flat, .black⟩], [⟨.flat, .black⟩]]]

set_option maxHeartbeats 1600000 in
theorem road_priority_and_dragon_clause_witness :
    determineWinner dualRoadBoard ⟨5, 0⟩ ⟨5, 0⟩ .black =
      ⟨some (GameWinner.player .black), some WinCondition.road, none⟩ :=
  (road_priority_and_dragon_clause dualRoadBoard ⟨5, 0⟩ ⟨5, 0⟩ .black
    (.inl (by rfl))).2 (by rfl) (by rfl)

/-- Claim C7: with no road for either player, a flat-win outcome is produced
exactly when the board is full (every cell non-empty) or some player's
combined reserve is zero; the tallies count exactly the stacks with a flat
top of the respective player (standing and capstone tops count for neither);
strictly more flat-topped stacks wins with kind Flat, equal tallies draw, and
otherwise the game continues (no winner, no win condition). -/
theorem flat_win_trigger_and_tally (b : Board) (wp bp : Pieces) (ap : Player)
    (hw : checkRoad b .white = false) (hb : checkRoad b .black = false) :
    (isBoardFull b = true ↔ ∀ row ∈ b, ∀ cell ∈ row, cell ≠ ([] : Stack)) ∧
    (hasPlayerRunOutOfPieces wp bp = true ↔
      wp.flat + wp.capstone = 0 ∨ bp.flat + bp.capstone = 0) ∧
    countFlatStones b = (flatTopCount .white b, flatTopCount .black b) ∧
    ((isBoardFull b || hasPlayerRunOutOfPieces wp bp) = false →
      (determineWinner b wp bp ap).winner = none ∧
      (determineWinner b wp bp ap).winCondition = none) ∧
    ((isBoardFull b || hasPlayerRunOutOfPieces wp bp) = true →
      (determineWinner b wp bp ap).winCondition = some WinCondition.flat ∧
      (determineWinner b wp bp ap).winner = some
        (if flatTopCount .white b > flatTopCount .black b then GameWinner.player .white
         else if flatTopCount .black b > flatTopCount .white b then GameWinner.player .black
         else GameWinner.draw)) := by
  refine ⟨?_, ?_, countFlatStones_eq b, ?_, ?_⟩
  · simp [isBoardFull, List.all_eq_true, List.isEmpty_iff]
  · simp only [hasPlayerRunOutOfPieces, Bool.or_eq_true, Bool.and_eq_true, decide_eq_true_eq]
    omega
  · intro htrig
    have hf : isBoardFull b = false := by
      cases hfb : isBoardFull b
      · rfl
      · rw [hfb] at htrig; simp at htrig
    have ho : hasPlayerRunOutOfPieces wp bp = false := by
      cases hob : hasPlayerRunOutOfPieces wp bp
      · rfl
      · rw [hob] at htrig; simp at htrig
    cases hcw : checkTak b .white <;> cases hcb : checkTak b .black <;>
      simp [determineWinner, hw, hb, hf, ho, hcw, hcb]
  · intro htrig
    have htrig2 : (isBoardFull b = true) ∨ (hasPlayerRunOutOfPieces wp bp = true) := by
      cases hfb : isBoardFull b
      · right
        cases hob : hasPlayerRunOutOfPieces wp bp
        · rw [hfb, hob] at htrig; simp at htrig
        · rfl
      · left; rfl
    have hcf := countFlatStones_eq b
    constructor
    · simp only [determineWinner, hw, hb]
      simp only [Bool.false_eq_true, if_false, false_and, if_pos htrig2]
      split
      · simp
      · split <;> simp
    · simp only [determineWinner, hw, hb]
      simp only [Bool.false_eq_true, if_false, false_and, if_pos htrig2]
      rw [hcf]
      by_cases h1 : flatTopCount .white b > flatTopCount .black b
      · simp [h1]
      · by_cases h2 : flatTopCount .black b > flatTopCount .white b
        · simp [h1, h2]
        · simp [h1, h2]

set_option maxHeartbeats 1600000 in
theorem flat_win_trigger_and_tally_witness :
    (determineWinner (createEmptyBoard 3) ⟨10, 0⟩ ⟨0, 0⟩ .white).winCondition =
      some WinCondition.flat ∧
    (determineWinner (createEmptyBoard 3) ⟨10, 0⟩ ⟨0, 0⟩ .white).winner =
      some GameWinner.draw := by
  have h := flat_win_trigger_and_tally (createEmptyBoard 3) ⟨10, 0⟩ ⟨0, 0⟩ .white
    (by rfl) (by rfl)
  have h5 := h.2.2.2.2 (by rfl)
  refine ⟨h5.1, ?_⟩
  rw [h5.2]
  rfl

set_option maxHeartbeats 1600000 in
/-- Claim C4 (counterexample): a placement that completes White's road — a
terminal outcome (winner White by Road, status finished) — still stores
`currentPlayer = black`, the opponent of the acting player, instead of
freezing it at its pre-move value `white` as the claim requires. -/
theorem terminal_move_still_flips_turn :
    nearRoadGame.currentPlayer = .white ∧
    (placePiece nearRoadGame .white 0 2 .flat).map
        (fun g => (g.winner, g.winCondition, g.status, g.currentPlayer)) =
      .ok (some (.player .white), some .road, .finished, .black) := by
  exact ⟨rfl, by rfl⟩

/-- Claim C8: during the path walk of a stack move, a cell whose top piece is
a Capstone rejects unconditionally; a cell whose top piece is Standing rejects
unless it is the last cell of the path, its scheduled drop count is exactly 1,
and the single piece dropped there is a Capstone — in which case the walk
succeeds and the resulting stack is the old one with its Standing top turned
into a Flat of the same owner and the Capstone pushed on top.  In particular a
Standing-topped cell that is merely passed through (rest of path non-empty)
always rejects, whatever is carried. -/
theorem wall_and_capstone_blocking (b : Board) (rem : List Piece) (r c dropCount : Nat)
    (rest : List ((Nat × Nat) × Nat)) (top : Piece)
    (htop : (getCell b r c).getLast? = some top) :
    (top.type = .capstone →
      moveLoop (((r, c), dropCount) :: rest) b rem = .error "Cannot move onto capstones") ∧
    (top.type = .standing →
      ((∃ b', moveLoop (((r, c), dropCount) :: rest) b rem = .ok b') ↔
        (rest = [] ∧ dropCount = 1 ∧ rem.getLast?.map Piece.type = some PieceType.capstone)) ∧
      (∀ cap : Piece, rest = [] → dropCount = 1 → rem.getLast? = some cap →
        cap.type = .capstone →
        moveLoop (((r, c), dropCount) :: rest) b rem =
          .ok (setCell b r c
            (((getCell b r c).dropLast ++ [⟨PieceType.flat, top.player⟩]) ++ [cap])))) := by
  constructor
  · intro hcap
    simp [moveLoop, htop, hcap]
  · intro hstand
    constructor
    · by_cases hrem : rem.getLast?.map Piece.type = some PieceType.capstone
      · by_cases hrest : rest = [] ∧ dropCount = 1
        · obtain ⟨hr1, hr2⟩ := hrest
          subst hr1
          subst hr2
          simp [moveLoop, htop, hstand, hrem]
        · constructor
          · intro hex
            obtain ⟨b', hb'⟩ := hex
            simp [moveLoop, htop, hstand, hrem, hrest] at hb'
          · intro hc
            exact absurd ⟨hc.1, hc.2.1⟩ hrest
      · constructor
        · intro hex
          obtain ⟨b', hb'⟩ := hex
          simp [moveLoop, htop, hstand, hrem] at hb'
        · intro hc
          exact absurd hc.2.2 hrem
    · intro cap hr1 hr2 hr3 hr4
      subst hr1
      subst hr2
      have hrem : rem.getLast?.map Piece.type = some PieceType.capstone := by
        rw [hr3]
        simp [hr4]
      have hdrop : rem.drop (rem.length - 1) = [cap] := drop_length_sub_one rem cap hr3
      simp only [moveLoop, htop, hstand]
      simp only [hrem]
      simp [flattenTop, htop, hdrop, moveLoop]

/-- A 3x3 board with a lone black standing stone at (0,0). -/
def wallBoard : Board :=
  setCell (createEmptyBoard 3) 0 0 [⟨.standing, .black⟩]

theorem wall_and_capstone_blocking_witness :
    moveLoop [((0, 0), 1)] wallBoard [⟨.capstone, .white⟩] =
      .ok (setCell wallBoard 0 0
        (((getCell wallBoard 0 0).dropLast ++ [⟨PieceType.flat, Player.black⟩]) ++
          [⟨.capstone, .white⟩])) :=
  ((wall_and_capstone_blocking wallBoard [⟨.capstone, .white⟩] 0 0 1 []
    ⟨.standing, .black⟩ (by rfl)).2 (by rfl)).2 ⟨.capstone, .white⟩ rfl rfl rfl rfl

/-- Claim C9: a rejected command (any `.error` result, covering every
user-facing rejection reason of both mutations, including those detected
partway through walking the movement path) leaves the persisted game state
entirely unchanged: board, reserves, move count, turn, and the move log are
all exactly as before, because every `throw` in the source precedes every
database write and the Convex transaction rolls back. -/
theorem rejection_leaves_state_unchanged (g : Game) (c : Cmd) (e : String)
    (h : runCmd g c = .error e) :
    applyCmd g c = g ∧
    (applyCmd g c).board = g.board ∧
    (applyCmd g c).whitePieces = g.whitePieces ∧
    (applyCmd g c).blackPieces = g.blackPieces ∧
    (applyCmd g c).moveCount = g.moveCount ∧
    (applyCmd g c).currentPlayer = g.currentPlayer ∧
    (applyCmd g c).moves = g.moves := by
  have ha : applyCmd g c = g := by
    unfold applyCmd
    rw [h]
  exact ⟨ha, by rw [ha], by rw [ha], by rw [ha], by rw [ha], by rw [ha], by rw [ha]⟩

/-- A position where White moving the (0,0) stack two cells east is rejected
only at the SECOND path cell (a standing stone), after a drop at the first
cell had already been written to the working board copy. -/
def wallGame : Game :=
  { boardSize := 3
    board := setCell (setCell (createEmptyBoard 3) 0 0
      [⟨.flat, .white⟩, ⟨.flat, .white⟩]) 0 2 [⟨.standing, .black⟩]
    currentPlayer := .white
    status := .active
    moveCount := 6
    whitePieces := ⟨5, 0⟩
    blackPieces := ⟨5, 0⟩
    isOpeningPhase := false
    winner := none
    winCondition := none
    moves := [] }

theorem rejection_leaves_state_unchanged_witness :
    runCmd wallGame (.move .white 0 0 0 2 2 [1, 1]) =
      .error "Only capstones can move onto standing stones" ∧
    applyCmd wallGame (.move .white 0 0 0 2 2 [1, 1]) = wallGame :=
  ⟨by rfl, (rejection_leaves_state_unchanged wallGame (.move .white 0 0 0 2 2 [1, 1])
    "Only capstones can move onto standing stones" (by rfl)).1⟩

end Tak
